import Mathlib

/-!
Shallow embedding of internal/clients/clients.go: a cache of per-bearer-token
Kubernetes client sessions.  Each session wraps a delegating client, a
cancellable context and an idle-expiry ticker.  External collaborators
(client.New, cache.New, client.NewDelegatingClient, WaitForCacheSync, and the
underlying delegating client calls) are modelled by environment parameters
carrying their outcomes.  Machine state that Go mutates through pointers (the
session objects reached from the map) is modelled as an explicit store of
session records keyed by an allocation id, so that identity of sessions and
the effect of cancel and timer calls on a shared session are observable.
Durations are nanoseconds, as in the Go time package.
-/

/-- One nanosecond-count minute, as in the Go time package. -/
def timeMinute : Nat := 60 * 1000000000

/-- const expiry = 5 * time.Minute (clients.go line 22). -/
def expiry : Nat := 5 * timeMinute

/-- Model of a crossplane logging.Logger value: the nop logger or some other
concrete logger distinguished by an id. -/
inductive Logger where
  | nop
  | custom (id : Nat)
deriving DecidableEq, Repr

/-- Model of a runtime.Scheme value, distinguished by an id. -/
structure Scheme where
  id : Nat
deriving DecidableEq, Repr

/-- Model of a meta.RESTMapper value, distinguished by an id. -/
structure RESTMapper where
  id : Nat
deriving DecidableEq, Repr

/-- Model of a rest.Config.  host stands for every field other than the two
bearer-token fields and the rate-limit tuning; rest.CopyConfig is a value
copy, so copying is structure copy here. -/
structure RESTConfig where
  host : String
  bearerToken : String
  bearerTokenFile : String
  qps : Nat
  burst : Nat
deriving DecidableEq, Repr

/-- WithoutBearerToken (clients.go lines 64-69): copy of the supplied REST
config with its bearer token and bearer token file cleared. -/
def WithoutBearerToken (cfg : RESTConfig) : RESTConfig :=
  { cfg with bearerToken := "", bearerTokenFile := "" }

/-- The per-credential config derived on a cache miss (clients.go lines
152-154): copy the cached template, set the token, clear the token file. -/
def deriveConfig (cfg : RESTConfig) (token : String) : RESTConfig :=
  { cfg with bearerToken := token, bearerTokenFile := "" }

/-- The set of resources that are never cached (clients.go lines 30-40),
identified by kind. -/
def doNotCache : List String :=
  ["Pod", "Secret", "ConfigMap", "Service", "ServiceAccount",
   "Deployment", "DaemonSet", "RoleBinding", "ClusterRoleBinding"]

/-- Model of a time.Ticker: the absolute time of the next (first) tick and
whether it was stopped. -/
structure Ticker where
  deadline : Nat
  stopped : Bool
deriving DecidableEq, Repr

/-- time.NewTicker d at the current instant now. -/
def Ticker.new (now dur : Nat) : Ticker :=
  { deadline := now + dur, stopped := false }

/-- Ticker.Reset d at instant now: the next tick moves to now + d and a
stopped ticker resumes. -/
def Ticker.reset (tk : Ticker) (now dur : Nat) : Ticker :=
  { tk with deadline := now + dur, stopped := false }

/-- Ticker.Stop. -/
def Ticker.stop (tk : Ticker) : Ticker :=
  { tk with stopped := true }

/-- Model of a session record (clients.go lines 242-248).  client is the
identity of the delegating client bound to this session; cancelCount counts
invocations of the cancel function of its context; expired is its idle
ticker; log is the logger it was given. -/
structure session where
  client : Nat
  cancelCount : Nat
  expired : Ticker
  log : Logger
deriving DecidableEq, Repr

/-- Observable events emitted by Cache.Get and the session operation
wrappers, in program order. -/
inductive Ev where
  | buildWriteClient (cfg : RESTConfig)
  | buildCache (cfg : RESTConfig)
  | buildDelegating (uncached : List String)
  | newTimer (deadline : Nat)
  | insertSession (token : String) (sid : Nat)
  | spawnSyncTask (token : String)
  | spawnIdleTask (token : String)
  | waitSync
  | removeCall (token : String)
  | timerReset (deadline : Nat)
  | delegate (op : String)
deriving DecidableEq, Repr

/-- The state of a Cache (clients.go lines 88-97).  active maps a bearer
token to the allocation id of its session; sessions is the store of every
session record ever allocated, keyed by allocation id (Go keeps the records
alive through goroutine references even after map removal); nextId is the
allocator counter. -/
structure Cache where
  active : List (String × Nat)
  sessions : List (Nat × session)
  nextId : Nat
  cfg : RESTConfig
  scheme : Scheme
  mapper : Option RESTMapper
  log : Logger
deriving DecidableEq, Repr

/-- Lookup of a token in the active map. -/
def lookupTok : List (String × Nat) → String → Option Nat
  | [], _ => none
  | p :: rest, t => if p.1 = t then some p.2 else lookupTok rest t

/-- Removal of every entry for a token from the active map (Go map delete). -/
def eraseTok : List (String × Nat) → String → List (String × Nat)
  | [], _ => []
  | p :: rest, t => if p.1 = t then eraseTok rest t else p :: eraseTok rest t

/-- Go map assignment: the new binding replaces any old binding of the key. -/
def insertTok (a : List (String × Nat)) (t : String) (sid : Nat) :
    List (String × Nat) :=
  (t, sid) :: eraseTok a t

/-- Lookup of a session record by allocation id. -/
def lookupSid : List (Nat × session) → Nat → Option session
  | [], _ => none
  | p :: rest, sid => if p.1 = sid then some p.2 else lookupSid rest sid

/-- Update of the session record with the given allocation id in the store
(a Go mutation through the shared session pointer). -/
def updateSid (l : List (Nat × session)) (sid : Nat) (f : session → session) :
    List (Nat × session) :=
  l.map fun p => if p.1 = sid then (p.1, f p.2) else p

/-- The effect of removal on the removed session record: its context cancel
function runs once and its ticker is stopped (clients.go lines 235-236). -/
def stopSession (s : session) : session :=
  { s with cancelCount := s.cancelCount + 1, expired := s.expired.stop }

/-- Cache.remove (clients.go lines 230-240): under the lock, if the token is
still mapped, cancel that session, stop its ticker and delete the map
entry; otherwise do nothing. -/
def Cache.remove (c : Cache) (token : String) : Cache :=
  match lookupTok c.active token with
  | some sid =>
      { c with active := eraseTok c.active token,
               sessions := updateSid c.sessions sid stopSession }
  | none => c

/-- A CacheOption (clients.go lines 99-116): the two option constructors the
source defines, WithLogger and WithRESTMapper. -/
inductive CacheOption where
  | WithLogger (l : Logger)
  | WithRESTMapper (m : RESTMapper)
deriving DecidableEq, Repr

/-- Application of one option to the cache under construction. -/
def applyOption (c : Cache) : CacheOption → Cache
  | CacheOption.WithLogger l => { c with log := l }
  | CacheOption.WithRESTMapper m => { c with mapper := some m }

/-- NewCache (clients.go lines 121-134): empty active map, supplied scheme
and config, nop logger and no shared mapper by default, then every supplied
option applied in order. -/
def NewCache (s : Scheme) (c : RESTConfig) (o : List CacheOption) : Cache :=
  o.foldl applyOption
    { active := [], sessions := [], nextId := 0, cfg := c, scheme := s,
      mapper := none, log := Logger.nop }

/-- Outcomes of the external collaborators one Cache.Get call consults:
client.New, cache.New, client.NewDelegatingClient (some err means the call
failed with that underlying error message) and WaitForCacheSync (false means
sync did not complete). -/
structure Env where
  newClientErr : Option String
  newCacheErr : Option String
  newDelegatingErr : Option String
  syncOk : Bool
deriving DecidableEq, Repr

/-- The errors Cache.Get can return: the first three wrap an underlying
error message with errors.Wrap; the last is errors.New at the sync check. -/
inductive GetErr where
  | writeClient (cause : String)
  | cacheBuild (cause : String)
  | delegating (cause : String)
  | syncFail
deriving DecidableEq, Repr

/-- The message of each Get error, with the wrapping the pkg errors package
performs. -/
def GetErr.message : GetErr → String
  | GetErr.writeClient m => "cannot create write client: " ++ m
  | GetErr.cacheBuild m => "cannot create cache: " ++ m
  | GetErr.delegating m => "cannot create delegating client: " ++ m
  | GetErr.syncFail => "cannot sync cache"

instance instDecEqExceptGet : DecidableEq (Except GetErr Nat) := fun a b =>
  match a, b with
  | Except.ok x, Except.ok y =>
      if h : x = y then isTrue (by rw [h]) else isFalse (by simp [h])
  | Except.error x, Except.error y =>
      if h : x = y then isTrue (by rw [h]) else isFalse (by simp [h])
  | Except.ok _, Except.error _ => isFalse (by simp)
  | Except.error _, Except.ok _ => isFalse (by simp)

/-- Result of one Cache.Get call: the returned client (the allocation id of
a session) or error, the cache state after the call, and the event trace of
the call in program order. -/
structure GetOut where
  res : Except GetErr Nat
  st : Cache
  tr : List Ev
deriving DecidableEq, Repr

/-- Cache.Get (clients.go lines 137-228).  On hit, return the mapped session
unchanged.  On miss: derive the per-token config; build the write client,
the cache and the delegating client, failing fast with a wrapped error and
an unchanged cache state; allocate the idle ticker and the session record;
insert the session under the token; spawn the two supervising tasks; block
on the initial sync, removing the inserted entry on sync failure. -/
def Cache.get (c : Cache) (env : Env) (now : Nat) (token : String) : GetOut :=
  match lookupTok c.active token with
  | some sid => ⟨Except.ok sid, c, []⟩
  | none =>
    let cfg := deriveConfig c.cfg token
    match env.newClientErr with
    | some m => ⟨Except.error (GetErr.writeClient m), c, [Ev.buildWriteClient cfg]⟩
    | none =>
      match env.newCacheErr with
      | some m => ⟨Except.error (GetErr.cacheBuild m), c,
          [Ev.buildWriteClient cfg, Ev.buildCache cfg]⟩
      | none =>
        match env.newDelegatingErr with
        | some m => ⟨Except.error (GetErr.delegating m), c,
            [Ev.buildWriteClient cfg, Ev.buildCache cfg,
             Ev.buildDelegating doNotCache]⟩
        | none =>
          let sid := c.nextId
          let sn : session := { client := sid, cancelCount := 0,
                                expired := Ticker.new now expiry, log := c.log }
          let c1 : Cache := { c with active := insertTok c.active token sid,
                                     sessions := (sid, sn) :: c.sessions,
                                     nextId := c.nextId + 1 }
          let tr := [Ev.buildWriteClient cfg, Ev.buildCache cfg,
                     Ev.buildDelegating doNotCache, Ev.newTimer (now + expiry),
                     Ev.insertSession token sid, Ev.spawnSyncTask token,
                     Ev.spawnIdleTask token, Ev.waitSync]
          if env.syncOk then ⟨Except.ok sid, c1, tr⟩
          else ⟨Except.error GetErr.syncFail, Cache.remove c1 token,
                tr ++ [Ev.removeCall token]⟩

/-- Why the blocking Start call of the watch cache returned. -/
inductive StartReturn where
  | cancelled
  | failed (msg : String)
deriving DecidableEq, Repr

/-- Body of the first supervising goroutine after Start returns (clients.go
lines 195-202): the return value of Start is discarded and remove runs,
whatever the reason for the return. -/
def syncTaskOnReturn (c : Cache) (token : String) (_start : StartReturn) : Cache :=
  Cache.remove c token

/-- What woke the second supervising goroutine. -/
inductive IdleWake where
  | timerFired
  | ctxDone
deriving DecidableEq, Repr

/-- Body of the second supervising goroutine (clients.go lines 205-215): on
a tick of the expiry ticker it removes the token; on context cancellation it
exits without further action. -/
def idleTaskOnWake (c : Cache) (token : String) : IdleWake → Cache
  | IdleWake.timerFired => Cache.remove c token
  | IdleWake.ctxDone => c

/-- Result of one session operation wrapper: the value returned to the
caller, the session record afterwards, and the event trace of the wrapper in
program order. -/
structure OpOut (α : Type) where
  res : α
  sn : session
  tr : List Ev
deriving DecidableEq, Repr

/-- session.Get (clients.go lines 250-260): reset the ticker to expiry, then
delegate and return the underlying result r verbatim. -/
def session.get {α : Type} (s : session) (now : Nat) (r : α) : OpOut α :=
  ⟨r, { s with expired := s.expired.reset now expiry },
   [Ev.timerReset (now + expiry), Ev.delegate "Get"]⟩

/-- session.List (clients.go lines 262-272). -/
def session.list {α : Type} (s : session) (now : Nat) (r : α) : OpOut α :=
  ⟨r, { s with expired := s.expired.reset now expiry },
   [Ev.timerReset (now + expiry), Ev.delegate "List"]⟩

/-- session.Create (clients.go lines 274-284). -/
def session.create {α : Type} (s : session) (now : Nat) (r : α) : OpOut α :=
  ⟨r, { s with expired := s.expired.reset now expiry },
   [Ev.timerReset (now + expiry), Ev.delegate "Create"]⟩

/-- session.Delete (clients.go lines 286-296). -/
def session.delete {α : Type} (s : session) (now : Nat) (r : α) : OpOut α :=
  ⟨r, { s with expired := s.expired.reset now expiry },
   [Ev.timerReset (now + expiry), Ev.delegate "Delete"]⟩

/-- session.Update (clients.go lines 298-308). -/
def session.update {α : Type} (s : session) (now : Nat) (r : α) : OpOut α :=
  ⟨r, { s with expired := s.expired.reset now expiry },
   [Ev.timerReset (now + expiry), Ev.delegate "Update"]⟩

/-- session.Patch (clients.go lines 310-320). -/
def session.patch {α : Type} (s : session) (now : Nat) (r : α) : OpOut α :=
  ⟨r, { s with expired := s.expired.reset now expiry },
   [Ev.timerReset (now + expiry), Ev.delegate "Patch"]⟩

/-- session.DeleteAllOf (clients.go lines 322-332). -/
def session.deleteAllOf {α : Type} (s : session) (now : Nat) (r : α) : OpOut α :=
  ⟨r, { s with expired := s.expired.reset now expiry },
   [Ev.timerReset (now + expiry), Ev.delegate "DeleteAllOf"]⟩

/-- session.Status (clients.go lines 334-344). -/
def session.status {α : Type} (s : session) (now : Nat) (r : α) : OpOut α :=
  ⟨r, { s with expired := s.expired.reset now expiry },
   [Ev.timerReset (now + expiry), Ev.delegate "Status"]⟩

/-- session.Scheme (clients.go lines 346-356). -/
def session.scheme {α : Type} (s : session) (now : Nat) (r : α) : OpOut α :=
  ⟨r, { s with expired := s.expired.reset now expiry },
   [Ev.timerReset (now + expiry), Ev.delegate "Scheme"]⟩

/-- session.RESTMapper (clients.go lines 358-368). -/
def session.restMapper {α : Type} (s : session) (now : Nat) (r : α) : OpOut α :=
  ⟨r, { s with expired := s.expired.reset now expiry },
   [Ev.timerReset (now + expiry), Ev.delegate "RESTMapper"]⟩

/-- A concrete REST config template, for concrete evaluations. -/
def exCfg : RESTConfig :=
  { host := "https://api.example.org", bearerToken := "",
    bearerTokenFile := "/var/run/secrets/token", qps := 5, burst := 10 }

/-- A concrete scheme. -/
def exScheme : Scheme := { id := 1 }

/-- Collaborator outcomes where every construction step and the initial
sync succeed. -/
def exEnvOk : Env :=
  { newClientErr := none, newCacheErr := none, newDelegatingErr := none,
    syncOk := true }

/-- Collaborator outcomes where construction succeeds and the initial sync
fails. -/
def exEnvSyncFail : Env :=
  { newClientErr := none, newCacheErr := none, newDelegatingErr := none,
    syncOk := false }

/-- A fresh empty cache built with no options. -/
def exCache0 : Cache := NewCache exScheme exCfg []

/-- The cache after one successful Get for token tok-a at time 0. -/
def exCache1 : Cache := (Cache.get exCache0 exEnvOk 0 "tok-a").st

/-- A session registered under tok-a and later overwritten in the map. -/
def exSessionOld : session :=
  { client := 0, cancelCount := 0, expired := Ticker.new 0 expiry,
    log := Logger.nop }

/-- The session currently mapped under tok-a after the overwrite. -/
def exSessionNew : session :=
  { client := 1, cancelCount := 0, expired := Ticker.new 7 expiry,
    log := Logger.nop }

/-- A cache state exhibiting the overwrite race: both sessions were
allocated for tok-a, the map holds only the newer one. -/
def exCacheOverwritten : Cache :=
  { active := [("tok-a", 1)],
    sessions := [(0, exSessionOld), (1, exSessionNew)], nextId := 2,
    cfg := exCfg, scheme := exScheme, mapper := none, log := Logger.nop }

/-- The statement that one session operation wrapper, delegating the
operation named opName, first resets the idle ticker to expiry from now,
then delegates exactly once and returns the underlying result verbatim. -/
def resetsThenDelegates (opName : String)
    (f : (α : Type) → session → Nat → α → OpOut α) : Prop :=
  ∀ (α : Type) (s : session) (now : Nat) (r : α),
    (f α s now r).res = r ∧
    (f α s now r).sn = { s with expired := Ticker.reset s.expired now expiry } ∧
    (f α s now r).tr = [Ev.timerReset (now + expiry), Ev.delegate opName]

/-! ## Lemmas about the active map and the session store -/

theorem lookupTok_cons (p : String × Nat) (rest : List (String × Nat))
    (t : String) :
    lookupTok (p :: rest) t = if p.1 = t then some p.2 else lookupTok rest t :=
  rfl

theorem eraseTok_cons (p : String × Nat) (rest : List (String × Nat))
    (t : String) :
    eraseTok (p :: rest) t =
      if p.1 = t then eraseTok rest t else p :: eraseTok rest t := by
  by_cases h : p.1 = t <;> simp [eraseTok, h]

theorem lookupSid_cons (p : Nat × session) (rest : List (Nat × session))
    (sid : Nat) :
    lookupSid (p :: rest) sid =
      if p.1 = sid then some p.2 else lookupSid rest sid :=
  rfl

theorem updateSid_cons (p : Nat × session) (rest : List (Nat × session))
    (sid : Nat) (f : session → session) :
    updateSid (p :: rest) sid f =
      (if p.1 = sid then (p.1, f p.2) else p) :: updateSid rest sid f :=
  rfl

theorem lookupTok_erase_self (a : List (String × Nat)) (t : String) :
    lookupTok (eraseTok a t) t = none := by
  induction a with
  | nil => rfl
  | cons p rest ih =>
      rw [eraseTok_cons]
      by_cases h : p.1 = t
      · simp only [if_pos h, ih]
      · rw [if_neg h, lookupTok_cons, if_neg h, ih]

theorem lookupTok_erase_ne (a : List (String × Nat)) (t k : String)
    (h : k ≠ t) : lookupTok (eraseTok a t) k = lookupTok a k := by
  induction a with
  | nil => rfl
  | cons p rest ih =>
      rw [eraseTok_cons, lookupTok_cons]
      by_cases hp : p.1 = t
      · have hpk : p.1 ≠ k := fun hh => h (hh.symm.trans hp)
        rw [if_pos hp, if_neg hpk, ih]
      · rw [if_neg hp, lookupTok_cons, ih]

theorem lookupTok_erase_some (a : List (String × Nat)) (t k : String)
    (v : Nat) (h : lookupTok (eraseTok a t) k = some v) :
    lookupTok a k = some v := by
  by_cases hk : k = t
  · rw [hk, lookupTok_erase_self] at h; cases h
  · rw [lookupTok_erase_ne a t k hk] at h; exact h

theorem lookupTok_insert_self (a : List (String × Nat)) (t : String)
    (sid : Nat) : lookupTok (insertTok a t sid) t = some sid := by
  simp [insertTok, lookupTok]

theorem lookupTok_insert_ne (a : List (String × Nat)) (t k : String)
    (sid : Nat) (h : k ≠ t) :
    lookupTok (insertTok a t sid) k = lookupTok a k := by
  have ht : t ≠ k := fun hh => h hh.symm
  rw [insertTok, lookupTok_cons, if_neg ht, lookupTok_erase_ne a t k h]

theorem lookupTok_none_erase (a : List (String × Nat)) (t : String)
    (h : lookupTok a t = none) : eraseTok a t = a := by
  induction a with
  | nil => rfl
  | cons p rest ih =>
      rw [lookupTok_cons] at h
      by_cases hp : p.1 = t
      · rw [if_pos hp] at h; cases h
      · rw [if_neg hp] at h
        rw [eraseTok_cons, if_neg hp, ih h]

theorem lookupTok_remove_self (c : Cache) (t : String) :
    lookupTok (Cache.remove c t).active t = none := by
  unfold Cache.remove
  cases h : lookupTok c.active t with
  | none => exact h
  | some sid => exact lookupTok_erase_self c.active t

theorem lookupSid_update_self (l : List (Nat × session)) (sid : Nat)
    (f : session → session) (s : session) (h : lookupSid l sid = some s) :
    lookupSid (updateSid l sid f) sid = some (f s) := by
  induction l with
  | nil => cases h
  | cons p rest ih =>
      by_cases hp : p.1 = sid
      · rw [lookupSid_cons, if_pos hp] at h
        injection h with h
        simp [updateSid_cons, lookupSid_cons, hp, h]
      · rw [lookupSid_cons, if_neg hp] at h
        simp [updateSid_cons, lookupSid_cons, hp]
        exact ih h

theorem lookupSid_update_ne (l : List (Nat × session)) (sid k : Nat)
    (f : session → session) (h : k ≠ sid) :
    lookupSid (updateSid l sid f) k = lookupSid l k := by
  induction l with
  | nil => rfl
  | cons p rest ih =>
      by_cases hp : p.1 = sid
      · have hpk : p.1 ≠ k := fun hh => h (hh.symm.trans hp)
        have hsk : sid ≠ k := fun hh => h hh.symm
        simp [updateSid_cons, lookupSid_cons, hp, hpk, hsk, ih]
      · simp [updateSid_cons, lookupSid_cons, hp, ih]

theorem mem_keys_erase (a : List (String × Nat)) (t x : String)
    (h : x ∈ (eraseTok a t).map Prod.fst) : x ∈ a.map Prod.fst := by
  induction a with
  | nil => exact h
  | cons p rest ih =>
      rw [eraseTok_cons] at h
      rw [List.map_cons, List.mem_cons]
      by_cases hp : p.1 = t
      · rw [if_pos hp] at h
        exact Or.inr (ih h)
      · rw [if_neg hp, List.map_cons, List.mem_cons] at h
        rcases h with h | h
        · exact Or.inl h
        · exact Or.inr (ih h)

theorem nodup_keys_erase (a : List (String × Nat)) (t : String)
    (h : (a.map Prod.fst).Nodup) : ((eraseTok a t).map Prod.fst).Nodup := by
  induction a with
  | nil => exact h
  | cons p rest ih =>
      rw [List.map_cons, List.nodup_cons] at h
      rw [eraseTok_cons]
      by_cases hp : p.1 = t
      · rw [if_pos hp]; exact ih h.2
      · rw [if_neg hp, List.map_cons, List.nodup_cons]
        exact ⟨fun hm => h.1 (mem_keys_erase rest t p.1 hm), ih h.2⟩

theorem not_mem_of_lookupTok_none (a : List (String × Nat)) (t : String)
    (h : lookupTok a t = none) : t ∉ a.map Prod.fst := by
  induction a with
  | nil => simp
  | cons p rest ih =>
      rw [lookupTok_cons] at h
      by_cases hp : p.1 = t
      · rw [if_pos hp] at h; cases h
      · rw [if_neg hp] at h
        rw [List.map_cons, List.mem_cons]
        rintro (hh | hh)
        · exact hp hh.symm
        · exact ih h hh

theorem nodup_keys_insert (a : List (String × Nat)) (t : String) (sid : Nat)
    (h : (a.map Prod.fst).Nodup) :
    ((insertTok a t sid).map Prod.fst).Nodup := by
  rw [insertTok, List.map_cons, List.nodup_cons]
  exact ⟨not_mem_of_lookupTok_none _ _ (lookupTok_erase_self a t),
         nodup_keys_erase a t h⟩

/-! ## The well-formedness invariant of a cache state -/

/-- Well-formedness of a cache state: every mapped session id is below the
allocator counter, no session id is mapped under two tokens, and the map has
at most one entry per token. -/
structure WF (c : Cache) : Prop where
  bounded : ∀ t sid, lookupTok c.active t = some sid → sid < c.nextId
  inj : ∀ t1 t2 sid, lookupTok c.active t1 = some sid →
    lookupTok c.active t2 = some sid → t1 = t2
  nodupKeys : (c.active.map Prod.fst).Nodup

theorem WF_nil (c : Cache) (h : c.active = []) : WF c := by
  constructor
  · intro t sid hl; rw [h] at hl; cases hl
  · intro t1 t2 sid h1 _; rw [h] at h1; cases h1
  · rw [h]; simp

theorem WF_remove (c : Cache) (t : String) (h : WF c) :
    WF (Cache.remove c t) := by
  unfold Cache.remove
  cases hl : lookupTok c.active t with
  | none => exact h
  | some sid =>
      constructor
      · intro k v hk
        exact h.bounded k v (lookupTok_erase_some _ _ _ _ hk)
      · intro k1 k2 v h1 h2
        exact h.inj k1 k2 v (lookupTok_erase_some _ _ _ _ h1)
          (lookupTok_erase_some _ _ _ _ h2)
      · exact nodup_keys_erase _ _ h.nodupKeys

/-! ## Characterization of Cache.get by path -/

theorem get_hit (c : Cache) (env : Env) (now : Nat) (t : String) (sid : Nat)
    (h : lookupTok c.active t = some sid) :
    Cache.get c env now t = ⟨Except.ok sid, c, []⟩ := by
  simp [Cache.get, h]

theorem get_miss_clientErr (c : Cache) (env : Env) (now : Nat) (t : String)
    (m : String) (h : lookupTok c.active t = none)
    (hm : env.newClientErr = some m) :
    Cache.get c env now t = ⟨Except.error (GetErr.writeClient m), c,
      [Ev.buildWriteClient (deriveConfig c.cfg t)]⟩ := by
  simp [Cache.get, h, hm]

theorem get_miss_cacheErr (c : Cache) (env : Env) (now : Nat) (t : String)
    (m : String) (h : lookupTok c.active t = none)
    (h1 : env.newClientErr = none) (hm : env.newCacheErr = some m) :
    Cache.get c env now t = ⟨Except.error (GetErr.cacheBuild m), c,
      [Ev.buildWriteClient (deriveConfig c.cfg t),
       Ev.buildCache (deriveConfig c.cfg t)]⟩ := by
  simp [Cache.get, h, h1, hm]

theorem get_miss_delegatingErr (c : Cache) (env : Env) (now : Nat)
    (t : String) (m : String) (h : lookupTok c.active t = none)
    (h1 : env.newClientErr = none) (h2 : env.newCacheErr = none)
    (hm : env.newDelegatingErr = some m) :
    Cache.get c env now t = ⟨Except.error (GetErr.delegating m), c,
      [Ev.buildWriteClient (deriveConfig c.cfg t),
       Ev.buildCache (deriveConfig c.cfg t),
       Ev.buildDelegating doNotCache]⟩ := by
  simp [Cache.get, h, h1, h2, hm]

theorem get_success (c : Cache) (env : Env) (now : Nat) (t : String)
    (h : lookupTok c.active t = none) (h1 : env.newClientErr = none)
    (h2 : env.newCacheErr = none) (h3 : env.newDelegatingErr = none)
    (hs : env.syncOk = true) :
    Cache.get c env now t = ⟨Except.ok c.nextId,
      { c with active := insertTok c.active t c.nextId,
               sessions := (c.nextId,
                 { client := c.nextId, cancelCount := 0,
                   expired := Ticker.new now expiry, log := c.log }) ::
                 c.sessions,
               nextId := c.nextId + 1 },
      [Ev.buildWriteClient (deriveConfig c.cfg t),
       Ev.buildCache (deriveConfig c.cfg t),
       Ev.buildDelegating doNotCache, Ev.newTimer (now + expiry),
       Ev.insertSession t c.nextId, Ev.spawnSyncTask t,
       Ev.spawnIdleTask t, Ev.waitSync]⟩ := by
  simp [Cache.get, h, h1, h2, h3, hs]

theorem get_sync_fail (c : Cache) (env : Env) (now : Nat) (t : String)
    (h : lookupTok c.active t = none) (h1 : env.newClientErr = none)
    (h2 : env.newCacheErr = none) (h3 : env.newDelegatingErr = none)
    (hs : env.syncOk = false) :
    Cache.get c env now t = ⟨Except.error GetErr.syncFail,
      Cache.remove
        { c with active := insertTok c.active t c.nextId,
                 sessions := (c.nextId,
                   { client := c.nextId, cancelCount := 0,
                     expired := Ticker.new now expiry, log := c.log }) ::
                   c.sessions,
                 nextId := c.nextId + 1 } t,
      [Ev.buildWriteClient (deriveConfig c.cfg t),
       Ev.buildCache (deriveConfig c.cfg t),
       Ev.buildDelegating doNotCache, Ev.newTimer (now + expiry),
       Ev.insertSession t c.nextId, Ev.spawnSyncTask t,
       Ev.spawnIdleTask t, Ev.waitSync, Ev.removeCall t]⟩ := by
  simp [Cache.get, h, h1, h2, h3, hs]

theorem WF_insert (c : Cache) (t : String) (sl : List (Nat × session))
    (h : WF c) :
    WF { c with active := insertTok c.active t c.nextId, sessions := sl,
                nextId := c.nextId + 1 } := by
  constructor
  · intro k v hk
    show v < c.nextId + 1
    by_cases hkt : k = t
    · rw [hkt] at hk
      rw [lookupTok_insert_self] at hk
      injection hk with hk
      omega
    · rw [lookupTok_insert_ne c.active t k c.nextId hkt] at hk
      have := h.bounded k v hk
      omega
  · intro k1 k2 v hk1 hk2
    by_cases h1t : k1 = t
    · by_cases h2t : k2 = t
      · rw [h1t, h2t]
      · rw [h1t] at hk1
        rw [lookupTok_insert_self] at hk1
        injection hk1 with hk1
        rw [lookupTok_insert_ne c.active t k2 c.nextId h2t] at hk2
        have := h.bounded k2 v hk2
        omega
    · by_cases h2t : k2 = t
      · rw [h2t] at hk2
        rw [lookupTok_insert_self] at hk2
        injection hk2 with hk2
        rw [lookupTok_insert_ne c.active t k1 c.nextId h1t] at hk1
        have := h.bounded k1 v hk1
        omega
      · rw [lookupTok_insert_ne c.active t k1 c.nextId h1t] at hk1
        rw [lookupTok_insert_ne c.active t k2 c.nextId h2t] at hk2
        exact h.inj k1 k2 v hk1 hk2
  · exact nodup_keys_insert c.active t c.nextId h.nodupKeys

theorem WF_get (c : Cache) (env : Env) (now : Nat) (t : String) (h : WF c) :
    WF (Cache.get c env now t).st := by
  cases hl : lookupTok c.active t with
  | some sid => rw [get_hit c env now t sid hl]; exact h
  | none =>
    cases hc1 : env.newClientErr with
    | some m => rw [get_miss_clientErr c env now t m hl hc1]; exact h
    | none =>
      cases hc2 : env.newCacheErr with
      | some m => rw [get_miss_cacheErr c env now t m hl hc1 hc2]; exact h
      | none =>
        cases hc3 : env.newDelegatingErr with
        | some m =>
            rw [get_miss_delegatingErr c env now t m hl hc1 hc2 hc3]; exact h
        | none =>
          cases hs : env.syncOk with
          | true =>
              rw [get_success c env now t hl hc1 hc2 hc3 hs]
              exact WF_insert c t _ h
          | false =>
              rw [get_sync_fail c env now t hl hc1 hc2 hc3 hs]
              exact WF_remove _ t (WF_insert c t _ h)

theorem get_ok_mapped (c : Cache) (env : Env) (now : Nat) (t : String)
    (s : Nat) (h : (Cache.get c env now t).res = Except.ok s) :
    lookupTok (Cache.get c env now t).st.active t = some s := by
  cases hl : lookupTok c.active t with
  | some sid =>
      rw [get_hit c env now t sid hl] at h ⊢
      injection h with h
      subst h
      exact hl
  | none =>
    cases hc1 : env.newClientErr with
    | some m => rw [get_miss_clientErr c env now t m hl hc1] at h; cases h
    | none =>
      cases hc2 : env.newCacheErr with
      | some m => rw [get_miss_cacheErr c env now t m hl hc1 hc2] at h; cases h
      | none =>
        cases hc3 : env.newDelegatingErr with
        | some m =>
            rw [get_miss_delegatingErr c env now t m hl hc1 hc2 hc3] at h
            cases h
        | none =>
          cases hs : env.syncOk with
          | true =>
              rw [get_success c env now t hl hc1 hc2 hc3 hs] at h ⊢
              injection h with h
              subst h
              exact lookupTok_insert_self c.active t c.nextId
          | false =>
              rw [get_sync_fail c env now t hl hc1 hc2 hc3 hs] at h
              cases h

theorem get_ok_cases (c : Cache) (env : Env) (now : Nat) (t : String)
    (s : Nat) (h : (Cache.get c env now t).res = Except.ok s) :
    lookupTok c.active t = some s ∨
      (lookupTok c.active t = none ∧ s = c.nextId ∧
        (Cache.get c env now t).st.nextId = c.nextId + 1) := by
  cases hl : lookupTok c.active t with
  | some sid =>
      rw [get_hit c env now t sid hl] at h
      injection h with h
      exact Or.inl (by rw [h])
  | none =>
    cases hc1 : env.newClientErr with
    | some m => rw [get_miss_clientErr c env now t m hl hc1] at h; cases h
    | none =>
      cases hc2 : env.newCacheErr with
      | some m => rw [get_miss_cacheErr c env now t m hl hc1 hc2] at h; cases h
      | none =>
        cases hc3 : env.newDelegatingErr with
        | some m =>
            rw [get_miss_delegatingErr c env now t m hl hc1 hc2 hc3] at h
            cases h
        | none =>
          cases hs : env.syncOk with
          | true =>
              rw [get_success c env now t hl hc1 hc2 hc3 hs] at h ⊢
              injection h with h
              exact Or.inr ⟨rfl, h.symm, rfl⟩
          | false =>
              rw [get_sync_fail c env now t hl hc1 hc2 hc3 hs] at h
              cases h

theorem remove_of_none (c : Cache) (t : String)
    (h : lookupTok c.active t = none) : Cache.remove c t = c := by
  unfold Cache.remove
  rw [h]

theorem remove_cfg (c : Cache) (t : String) :
    (Cache.remove c t).cfg = c.cfg := by
  unfold Cache.remove
  cases h : lookupTok c.active t <;> rfl

theorem foldl_applyOption_frame (opts : List CacheOption) (c : Cache) :
    (opts.foldl applyOption c).active = c.active ∧
    (opts.foldl applyOption c).sessions = c.sessions ∧
    (opts.foldl applyOption c).nextId = c.nextId ∧
    (opts.foldl applyOption c).cfg = c.cfg ∧
    (opts.foldl applyOption c).scheme = c.scheme := by
  induction opts generalizing c with
  | nil => exact ⟨rfl, rfl, rfl, rfl, rfl⟩
  | cons o rest ih =>
      cases o with
      | WithLogger l => exact ih _
      | WithRESTMapper m => exact ih _

/-! ## The claims -/

/-- C1: when a session is already mapped under credential t, Get returns
exactly that session id with no error, leaves the whole cache state (map,
session records, timers, allocator) unchanged, and its trace is empty: no
client or cache is built, no sync is triggered or awaited, no timer is
reset, no removal is called. -/
theorem get_on_hit_returns_same_session (c : Cache) (env : Env) (now : Nat)
    (t : String) (sid : Nat) (h : lookupTok c.active t = some sid) :
    Cache.get c env now t = ⟨Except.ok sid, c, []⟩ :=
  get_hit c env now t sid h

theorem get_on_hit_returns_same_session_witness :
    lookupTok exCache1.active "tok-a" = some 0 ∧
    Cache.get exCache1 exEnvOk 600 "tok-a" = ⟨Except.ok 0, exCache1, []⟩ :=
  ⟨by decide,
   get_on_hit_returns_same_session exCache1 exEnvOk 600 "tok-a" 0 (by decide)⟩

/-- C2: every session operation wrapper (Get, List, Create, Update, Patch,
Delete, DeleteAllOf, Status, Scheme, RESTMapper) resets the idle ticker to
expiry (5 minutes) from now before delegating, delegates exactly once, and
returns the underlying result or error verbatim, with no retry and no
translation. -/
theorem session_ops_reset_timer_then_delegate :
    expiry = 5 * timeMinute ∧
    resetsThenDelegates "Get" (fun α => @session.get α) ∧
    resetsThenDelegates "List" (fun α => @session.list α) ∧
    resetsThenDelegates "Create" (fun α => @session.create α) ∧
    resetsThenDelegates "Update" (fun α => @session.update α) ∧
    resetsThenDelegates "Patch" (fun α => @session.patch α) ∧
    resetsThenDelegates "Delete" (fun α => @session.delete α) ∧
    resetsThenDelegates "DeleteAllOf" (fun α => @session.deleteAllOf α) ∧
    resetsThenDelegates "Status" (fun α => @session.status α) ∧
    resetsThenDelegates "Scheme" (fun α => @session.scheme α) ∧
    resetsThenDelegates "RESTMapper" (fun α => @session.restMapper α) := by
  refine ⟨rfl, ?_, ?_, ?_, ?_, ?_, ?_, ?_, ?_, ?_, ?_⟩ <;>
    exact fun α s now r => ⟨rfl, rfl, rfl⟩

/-- C3: whatever the reason the blocking Start call of the watch cache
returned (cancellation or internal failure), the supervising task calls
remove for its credential, so the map entry for that credential is gone
right after the task body runs, independently of any timer. -/
theorem sync_task_return_always_removes :
    ∀ (c : Cache) (t : String) (r : StartReturn),
      syncTaskOnReturn c t r = Cache.remove c t ∧
      lookupTok (syncTaskOnReturn c t r).active t = none :=
  fun c t _r => ⟨rfl, lookupTok_remove_self c t⟩

/-- C4: a failing Get for an unmapped credential leaves nothing reachable
under it.  Each of the three construction failures returns its wrapped
error with the cache state exactly as before the call (no insertion
happened); a sync failure returns the sync error with the entry already
removed, the removal call being the last event before Get returns. -/
theorem get_failure_leaves_no_entry (c : Cache) (env : Env) (now : Nat)
    (t : String) (h : lookupTok c.active t = none) :
    (∀ m, env.newClientErr = some m →
      Cache.get c env now t = ⟨Except.error (GetErr.writeClient m), c,
        [Ev.buildWriteClient (deriveConfig c.cfg t)]⟩) ∧
    (∀ m, env.newClientErr = none → env.newCacheErr = some m →
      Cache.get c env now t = ⟨Except.error (GetErr.cacheBuild m), c,
        [Ev.buildWriteClient (deriveConfig c.cfg t),
         Ev.buildCache (deriveConfig c.cfg t)]⟩) ∧
    (∀ m, env.newClientErr = none → env.newCacheErr = none →
      env.newDelegatingErr = some m →
      Cache.get c env now t = ⟨Except.error (GetErr.delegating m), c,
        [Ev.buildWriteClient (deriveConfig c.cfg t),
         Ev.buildCache (deriveConfig c.cfg t),
         Ev.buildDelegating doNotCache]⟩) ∧
    (env.newClientErr = none → env.newCacheErr = none →
      env.newDelegatingErr = none → env.syncOk = false →
      (Cache.get c env now t).res = Except.error GetErr.syncFail ∧
      lookupTok (Cache.get c env now t).st.active t = none ∧
      (Cache.get c env now t).tr.getLast? = some (Ev.removeCall t)) := by
  refine ⟨?_, ?_, ?_, ?_⟩
  · intro m hm
    exact get_miss_clientErr c env now t m h hm
  · intro m h1 hm
    exact get_miss_cacheErr c env now t m h h1 hm
  · intro m h1 h2 hm
    exact get_miss_delegatingErr c env now t m h h1 h2 hm
  · intro h1 h2 h3 hs
    rw [get_sync_fail c env now t h h1 h2 h3 hs]
    exact ⟨rfl, lookupTok_remove_self _ t, rfl⟩

theorem get_failure_leaves_no_entry_witness :
    lookupTok exCache0.active "tok-a" = none ∧
    ((∀ m, exEnvSyncFail.newClientErr = some m →
      Cache.get exCache0 exEnvSyncFail 0 "tok-a" =
        ⟨Except.error (GetErr.writeClient m), exCache0,
          [Ev.buildWriteClient (deriveConfig exCache0.cfg "tok-a")]⟩) ∧
    (∀ m, exEnvSyncFail.newClientErr = none →
      exEnvSyncFail.newCacheErr = some m →
      Cache.get exCache0 exEnvSyncFail 0 "tok-a" =
        ⟨Except.error (GetErr.cacheBuild m), exCache0,
          [Ev.buildWriteClient (deriveConfig exCache0.cfg "tok-a"),
           Ev.buildCache (deriveConfig exCache0.cfg "tok-a")]⟩) ∧
    (∀ m, exEnvSyncFail.newClientErr = none →
      exEnvSyncFail.newCacheErr = none →
      exEnvSyncFail.newDelegatingErr = some m →
      Cache.get exCache0 exEnvSyncFail 0 "tok-a" =
        ⟨Except.error (GetErr.delegating m), exCache0,
          [Ev.buildWriteClient (deriveConfig exCache0.cfg "tok-a"),
           Ev.buildCache (deriveConfig exCache0.cfg "tok-a"),
           Ev.buildDelegating doNotCache]⟩) ∧
    (exEnvSyncFail.newClientErr = none → exEnvSyncFail.newCacheErr = none →
      exEnvSyncFail.newDelegatingErr = none → exEnvSyncFail.syncOk = false →
      (Cache.get exCache0 exEnvSyncFail 0 "tok-a").res =
        Except.error GetErr.syncFail ∧
      lookupTok (Cache.get exCache0 exEnvSyncFail 0 "tok-a").st.active
        "tok-a" = none ∧
      (Cache.get exCache0 exEnvSyncFail 0 "tok-a").tr.getLast? =
        some (Ev.removeCall "tok-a"))) :=
  ⟨by decide, get_failure_leaves_no_entry exCache0 exEnvSyncFail 0 "tok-a"
    (by decide)⟩

/-- C5: for every cache state, collaborator outcome and credential, Get
either returns a session id with no error or returns exactly one of the
four errors, with the four wrapped messages of the source. -/
theorem get_error_taxonomy :
    ∀ (c : Cache) (env : Env) (now : Nat) (t : String),
      (∃ sid, (Cache.get c env now t).res = Except.ok sid) ∨
      (∃ m, (Cache.get c env now t).res =
          Except.error (GetErr.writeClient m) ∧
        (GetErr.writeClient m).message = "cannot create write client: " ++ m) ∨
      (∃ m, (Cache.get c env now t).res =
          Except.error (GetErr.cacheBuild m) ∧
        (GetErr.cacheBuild m).message = "cannot create cache: " ++ m) ∨
      (∃ m, (Cache.get c env now t).res =
          Except.error (GetErr.delegating m) ∧
        (GetErr.delegating m).message =
          "cannot create delegating client: " ++ m) ∨
      ((Cache.get c env now t).res = Except.error GetErr.syncFail ∧
        GetErr.syncFail.message = "cannot sync cache") := by
  intro c env now t
  cases hl : lookupTok c.active t with
  | some sid => exact Or.inl ⟨sid, by rw [get_hit c env now t sid hl]⟩
  | none =>
    cases hc1 : env.newClientErr with
    | some m =>
        exact Or.inr (Or.inl
          ⟨m, by rw [get_miss_clientErr c env now t m hl hc1], rfl⟩)
    | none =>
      cases hc2 : env.newCacheErr with
      | some m =>
          exact Or.inr (Or.inr (Or.inl
            ⟨m, by rw [get_miss_cacheErr c env now t m hl hc1 hc2], rfl⟩))
      | none =>
        cases hc3 : env.newDelegatingErr with
        | some m =>
            exact Or.inr (Or.inr (Or.inr (Or.inl
              ⟨m, by rw [get_miss_delegatingErr c env now t m hl hc1 hc2 hc3],
               rfl⟩)))
        | none =>
          cases hs : env.syncOk with
          | true =>
              exact Or.inl
                ⟨c.nextId, by rw [get_success c env now t hl hc1 hc2 hc3 hs]⟩
          | false =>
              exact Or.inr (Or.inr (Or.inr (Or.inr
                ⟨by rw [get_sync_fail c env now t hl hc1 hc2 hc3 hs], rfl⟩)))

/-- C6: remove is idempotent: a second remove of the same token is a no-op
on the whole state (the entry is already absent, so no session is cancelled
or stopped a second time), and after one remove the entry is absent. -/
theorem remove_twice_eq_remove_once :
    ∀ (c : Cache) (t : String),
      Cache.remove (Cache.remove c t) t = Cache.remove c t ∧
      lookupTok (Cache.remove c t).active t = none :=
  fun c t => ⟨remove_of_none _ t (lookupTok_remove_self c t),
              lookupTok_remove_self c t⟩

/-- C7: from a well-formed state, two successful Get calls for different
credentials return different session ids, and the resulting state is
well-formed with at most one map entry per credential. -/
theorem get_no_shared_sessions (c : Cache) (e1 e2 : Env) (n1 n2 : Nat)
    (t1 t2 : String) (s1 s2 : Nat) (hwf : WF c) (hne : t1 ≠ t2)
    (h1 : (Cache.get c e1 n1 t1).res = Except.ok s1)
    (h2 : (Cache.get (Cache.get c e1 n1 t1).st e2 n2 t2).res = Except.ok s2) :
    s1 ≠ s2 ∧
    WF (Cache.get (Cache.get c e1 n1 t1).st e2 n2 t2).st ∧
    ((Cache.get (Cache.get c e1 n1 t1).st e2 n2 t2).st.active.map
      Prod.fst).Nodup := by
  have hwf1 : WF (Cache.get c e1 n1 t1).st := WF_get c e1 n1 t1 hwf
  have hm1 : lookupTok (Cache.get c e1 n1 t1).st.active t1 = some s1 :=
    get_ok_mapped c e1 n1 t1 s1 h1
  have hwf2 : WF (Cache.get (Cache.get c e1 n1 t1).st e2 n2 t2).st :=
    WF_get _ e2 n2 t2 hwf1
  refine ⟨?_, hwf2, hwf2.nodupKeys⟩
  rcases get_ok_cases _ e2 n2 t2 s2 h2 with hcase | ⟨_, hs2, _⟩
  · intro heq
    apply hne
    apply hwf1.inj t1 t2 s1 hm1
    rw [heq]
    exact hcase
  · have hlt := hwf1.bounded t1 s1 hm1
    omega

theorem get_no_shared_sessions_witness :
    WF exCache0 ∧ ("tok-a" : String) ≠ "tok-b" ∧
    (Cache.get exCache0 exEnvOk 0 "tok-a").res = Except.ok 0 ∧
    (Cache.get (Cache.get exCache0 exEnvOk 0 "tok-a").st exEnvOk 0
      "tok-b").res = Except.ok 1 ∧
    ((0 : Nat) ≠ 1 ∧
     WF (Cache.get (Cache.get exCache0 exEnvOk 0 "tok-a").st exEnvOk 0
       "tok-b").st ∧
     ((Cache.get (Cache.get exCache0 exEnvOk 0 "tok-a").st exEnvOk 0
       "tok-b").st.active.map Prod.fst).Nodup) :=
  ⟨WF_nil exCache0 rfl, by decide, by decide, by decide,
   get_no_shared_sessions exCache0 exEnvOk exEnvOk 0 0 "tok-a" "tok-b" 0 1
     (WF_nil exCache0 rfl) (by decide) (by decide) (by decide)⟩

/-- C8 counterexample: with no options supplied to NewCache at all, the
first Get still hands the delegating client the fixed package-level
denylist doNotCache, which has nine kinds and is not empty — refuting both
that a denylist option exists and that the default denylist is empty. -/
theorem newCache_default_denylist_nonempty :
    Ev.buildDelegating doNotCache ∈
      (Cache.get (NewCache exScheme exCfg []) exEnvOk 0 "tok-a").tr ∧
    doNotCache.length = 9 ∧ doNotCache ≠ [] :=
  ⟨by decide, rfl, by decide⟩

/-- C8 amended: NewCache constructs an empty cache; the recognized options
are exactly WithLogger and WithRESTMapper (defaults: nop logger, no shared
mapper), and no option touches anything but the logger and mapper fields;
the denylist of always-live kinds is the fixed nine-element package-level
list doNotCache, not configurable and not empty. -/
theorem newCache_two_options_fixed_denylist :
    ∀ (s : Scheme) (cfg : RESTConfig) (opts : List CacheOption),
      (NewCache s cfg opts).active = [] ∧
      (NewCache s cfg opts).sessions = [] ∧
      (NewCache s cfg opts).nextId = 0 ∧
      (NewCache s cfg opts).cfg = cfg ∧
      (NewCache s cfg opts).scheme = s ∧
      (NewCache s cfg []).mapper = none ∧
      (NewCache s cfg []).log = Logger.nop ∧
      (∀ (st : Cache) (o : CacheOption),
        (applyOption st o).active = st.active ∧
        (applyOption st o).sessions = st.sessions ∧
        (applyOption st o).nextId = st.nextId ∧
        (applyOption st o).cfg = st.cfg ∧
        (applyOption st o).scheme = st.scheme) ∧
      doNotCache.length = 9 := by
  intro s cfg opts
  have h := foldl_applyOption_frame opts
    { active := [], sessions := [], nextId := 0, cfg := cfg, scheme := s,
      mapper := none, log := Logger.nop }
  refine ⟨h.1, h.2.1, h.2.2.1, h.2.2.2.1, h.2.2.2.2, rfl, rfl, ?_, rfl⟩
  intro st o
  cases o with
  | WithLogger l => exact ⟨rfl, rfl, rfl, rfl, rfl⟩
  | WithRESTMapper m => exact ⟨rfl, rfl, rfl, rfl, rfl⟩

/-- C9: on a miss, the per-credential config is the template with the
credential as bearer token, the token-file reference cleared, and every
other field as in the template; the first build step of Get uses exactly
that derived config, and the template held by the cache is unchanged after
the call on every path. -/
theorem get_miss_derives_config (c : Cache) (env : Env) (now : Nat)
    (t : String) (h : lookupTok c.active t = none) :
    (deriveConfig c.cfg t).bearerToken = t ∧
    (deriveConfig c.cfg t).bearerTokenFile = "" ∧
    (deriveConfig c.cfg t).host = c.cfg.host ∧
    (deriveConfig c.cfg t).qps = c.cfg.qps ∧
    (deriveConfig c.cfg t).burst = c.cfg.burst ∧
    ((Cache.get c env now t).st.cfg = c.cfg ∧
     (Cache.get c env now t).tr.head? =
       some (Ev.buildWriteClient (deriveConfig c.cfg t))) := by
  refine ⟨rfl, rfl, rfl, rfl, rfl, ?_⟩
  cases hc1 : env.newClientErr with
  | some m => rw [get_miss_clientErr c env now t m h hc1]; exact ⟨rfl, rfl⟩
  | none =>
    cases hc2 : env.newCacheErr with
    | some m =>
        rw [get_miss_cacheErr c env now t m h hc1 hc2]; exact ⟨rfl, rfl⟩
    | none =>
      cases hc3 : env.newDelegatingErr with
      | some m =>
          rw [get_miss_delegatingErr c env now t m h hc1 hc2 hc3]
          exact ⟨rfl, rfl⟩
      | none =>
        cases hs : env.syncOk with
        | true =>
            rw [get_success c env now t h hc1 hc2 hc3 hs]; exact ⟨rfl, rfl⟩
        | false =>
            rw [get_sync_fail c env now t h hc1 hc2 hc3 hs]
            exact ⟨remove_cfg _ t, rfl⟩

theorem get_miss_derives_config_witness :
    lookupTok exCache0.active "tok-a" = none ∧
    ((deriveConfig exCache0.cfg "tok-a").bearerToken = "tok-a" ∧
     (deriveConfig exCache0.cfg "tok-a").bearerTokenFile = "" ∧
     (deriveConfig exCache0.cfg "tok-a").host = exCache0.cfg.host ∧
     (deriveConfig exCache0.cfg "tok-a").qps = exCache0.cfg.qps ∧
     (deriveConfig exCache0.cfg "tok-a").burst = exCache0.cfg.burst ∧
     ((Cache.get exCache0 exEnvOk 0 "tok-a").st.cfg = exCache0.cfg ∧
      (Cache.get exCache0 exEnvOk 0 "tok-a").tr.head? =
        some (Ev.buildWriteClient (deriveConfig exCache0.cfg "tok-a")))) :=
  ⟨by decide, get_miss_derives_config exCache0 exEnvOk 0 "tok-a" (by decide)⟩

/-- C10: remove cancels and stops whichever session is currently mapped
under the token and deletes the entry; a different session record (for
instance one that was overwritten in the map for the same token) is left
completely untouched by the call. -/
theorem remove_acts_on_currently_mapped (c : Cache) (t : String)
    (sidOld sidNew : Nat) (sOld sNew : session)
    (hmap : lookupTok c.active t = some sidNew)
    (hnew : lookupSid c.sessions sidNew = some sNew)
    (hold : lookupSid c.sessions sidOld = some sOld)
    (hne : sidOld ≠ sidNew) :
    lookupTok (Cache.remove c t).active t = none ∧
    lookupSid (Cache.remove c t).sessions sidNew = some (stopSession sNew) ∧
    lookupSid (Cache.remove c t).sessions sidOld = some sOld ∧
    (stopSession sNew).cancelCount = sNew.cancelCount + 1 ∧
    (stopSession sNew).expired.stopped = true := by
  have hr : Cache.remove c t =
      { c with active := eraseTok c.active t,
               sessions := updateSid c.sessions sidNew stopSession } := by
    unfold Cache.remove
    rw [hmap]
  rw [hr]
  refine ⟨lookupTok_erase_self c.active t,
          lookupSid_update_self c.sessions sidNew stopSession sNew hnew,
          ?_, rfl, rfl⟩
  rw [lookupSid_update_ne c.sessions sidNew sidOld stopSession hne]
  exact hold

theorem remove_acts_on_currently_mapped_witness :
    lookupTok exCacheOverwritten.active "tok-a" = some 1 ∧
    lookupSid exCacheOverwritten.sessions 1 = some exSessionNew ∧
    lookupSid exCacheOverwritten.sessions 0 = some exSessionOld ∧
    (0 : Nat) ≠ 1 ∧
    (lookupTok (Cache.remove exCacheOverwritten "tok-a").active "tok-a" =
       none ∧
     lookupSid (Cache.remove exCacheOverwritten "tok-a").sessions 1 =
       some (stopSession exSessionNew) ∧
     lookupSid (Cache.remove exCacheOverwritten "tok-a").sessions 0 =
       some exSessionOld ∧
     (stopSession exSessionNew).cancelCount =
       exSessionNew.cancelCount + 1 ∧
     (stopSession exSessionNew).expired.stopped = true) :=
  ⟨by decide, by decide, by decide, by decide,
   remove_acts_on_currently_mapped exCacheOverwritten "tok-a" 0 1
     exSessionOld exSessionNew (by decide) (by decide) (by decide)
     (by decide)⟩
